import Mathlib

/-!
A verification development for the accm-next career-mentorship platform.

The definitions below are a shallow embedding of:
* the `/plans` route handlers `GET` and `POST` together with their zod
  schema `planSchema` (source file `src/unnamed/part_003`);
* the relational schema of the Prisma migration: unique indexes and the
  declared foreign-key `ON DELETE` actions (source file
  `src/unnamed/part_001`, SQL part);
* the operations `enroll`, `completeLesson` and the `career_users`
  create/update operations, whose route handlers are not part of the
  source snapshot; these are modelled from the specification and marked
  as such in their doc comments.

JavaScript numbers are modelled as exact rationals extended with the
special values `NaN` and `Infinity` where the handlers can produce them;
machine floating point rounding is immaterial to the properties proved
here (only sign tests, comparisons with small constants and integrality
tests occur).
-/

namespace Accm

/-- A JavaScript number value as it can appear in the `/plans` handlers:
a finite value (modelled exactly as a rational), `NaN`, or `Infinity`. -/
inductive JsNum where
  | num (q : ℚ)
  | nan
  | inf
deriving DecidableEq, Repr

/-- The JSON values that can populate a field of the `POST /plans`
payload: a string, a number, an array of strings, or `undefined`
(a missing field).  Other JSON shapes (nested objects, booleans, `null`)
behave like `undefined` for the two claims about this payload and are
not distinguished. -/
inductive JsValue where
  | str (s : String)
  | number (n : JsNum)
  | strArr (xs : List String)
  | undef
deriving DecidableEq, Repr

/-- Numeric value of a list of decimal digit characters. -/
def digitsVal : List Char → ℕ
  | [] => 0
  | c :: cs => (c.toNat - '0'.toNat) * 10 ^ cs.length + digitsVal cs

/-- Fractional value (in `[0,1)`) of a list of decimal digit characters
read as the digits after a decimal point. -/
def fracVal (cs : List Char) : ℚ :=
  (digitsVal cs : ℚ) / (10 : ℚ) ^ cs.length

/-- Models the JavaScript builtin `parseFloat` on a string restricted to
plain decimal literals: optional sign, integer digits, optional decimal
point and fraction digits; the longest such prefix is parsed and `none`
(JS `NaN`) is returned when no digit is found.  Exponent notation,
`"Infinity"` and hexadecimal input are outside the fragment the
handlers' claims exercise and are not modelled. -/
def parseFloatChars (cs : List Char) : Option ℚ :=
  let cs0 := cs.dropWhile (fun c => c = ' ')
  let (sgn, cs1) : ℚ × List Char :=
    match cs0 with
    | '-' :: t => (-1, t)
    | '+' :: t => (1, t)
    | _ => (1, cs0)
  let intPart := cs1.takeWhile Char.isDigit
  let rest := cs1.dropWhile Char.isDigit
  match rest with
  | '.' :: t =>
    let frac := t.takeWhile Char.isDigit
    if intPart = [] ∧ frac = [] then none
    else some (sgn * ((digitsVal intPart : ℚ) + fracVal frac))
  | _ =>
    if intPart = [] then none
    else some (sgn * (digitsVal intPart : ℚ))

/-- `parseFloat` on a string. -/
def parseFloatStr (s : String) : Option ℚ :=
  parseFloatChars s.toList

/-- Models the JavaScript builtin `parseInt` (radix 10) on a string:
optional sign followed by a maximal run of decimal digits; `none`
(JS `NaN`) when no digit is found. -/
def parseIntChars (cs : List Char) : Option ℤ :=
  let cs0 := cs.dropWhile (fun c => c = ' ')
  let (sgn, cs1) : ℤ × List Char :=
    match cs0 with
    | '-' :: t => (-1, t)
    | '+' :: t => (1, t)
    | _ => (1, cs0)
  let intPart := cs1.takeWhile Char.isDigit
  if intPart = [] then none else some (sgn * (digitsVal intPart : ℤ))

/-- `parseInt` on a string. -/
def parseIntStr (s : String) : Option ℤ :=
  parseIntChars s.toList

/-- `parseFloat` applied to a JSON field value, as in
`json.price = parseFloat(json.price)`.  A number is stringified and
re-parsed by JS, which is the identity on finite decimals, `NaN` and
`Infinity`; an array is stringified by joining with `","`, so parsing
stops at the first element; `undefined` parses to `NaN`. -/
def jsParseFloat : JsValue → JsNum
  | .str s =>
    match parseFloatStr s with
    | some q => .num q
    | none => .nan
  | .number n => n
  | .strArr [] => .nan
  | .strArr (x :: _) =>
    match parseFloatStr x with
    | some q => .num q
    | none => .nan
  | .undef => .nan

/-- `parseInt` applied to a JSON field value, as in
`json.duration = parseInt(json.duration)`.  A finite number is
stringified and re-parsed, which truncates toward zero; `NaN` and
`Infinity` stringify to non-numeric text and give `NaN`. -/
def jsParseInt : JsValue → JsNum
  | .str s =>
    match parseIntStr s with
    | some i => .num (i : ℚ)
    | none => .nan
  | .number (.num q) => .num ((q.num / (q.den : ℤ) : ℤ) : ℚ)
  | .number .nan => .nan
  | .number .inf => .nan
  | .strArr [] => .nan
  | .strArr (x :: _) =>
    match parseIntStr x with
    | some i => .num (i : ℚ)
    | none => .nan
  | .undef => .nan

/-- A zod validation issue: the offending field's path and its message. -/
structure Issue where
  path : String
  message : String
deriving DecidableEq, Repr

/-- The `POST /plans` JSON payload, field by field as `planSchema`
inspects it. -/
structure PlanPayload where
  name : JsValue
  description : JsValue
  price : JsValue
  duration : JsValue
  services : JsValue
  features : JsValue
deriving DecidableEq, Repr

/-- zod check for `name: z.string().min(1, "Plan name is required")`. -/
def checkName : JsValue → List Issue
  | .str s => if 1 ≤ s.length then [] else [⟨"name", "Plan name is required"⟩]
  | _ => [⟨"name", "Expected string"⟩]

/-- zod check for
`description: z.string().min(1, "Description is required")`. -/
def checkDescription : JsValue → List Issue
  | .str s => if 1 ≤ s.length then [] else [⟨"description", "Description is required"⟩]
  | _ => [⟨"description", "Expected string"⟩]

/-- zod check for `price: z.number().min(0, "Price must be non-negative")`.
zod rejects `NaN` at the type-check stage (`invalid_type`, received
`nan`); `Infinity` passes `min(0)`. -/
def checkPrice : JsValue → List Issue
  | .number (.num q) => if 0 ≤ q then [] else [⟨"price", "Price must be non-negative"⟩]
  | .number .inf => []
  | .number .nan => [⟨"price", "Expected number, received nan"⟩]
  | _ => [⟨"price", "Expected number"⟩]

/-- zod check for
`duration: z.number().int().min(1, "Duration must be at least 1")`.
For a finite number zod runs both checks and collects every failure. -/
def checkDuration : JsValue → List Issue
  | .number (.num q) =>
    (if q.den = 1 then [] else [⟨"duration", "Expected integer, received float"⟩]) ++
      (if 1 ≤ q then [] else [⟨"duration", "Duration must be at least 1"⟩])
  | .number .inf => [⟨"duration", "Expected integer, received float"⟩]
  | .number .nan => [⟨"duration", "Expected number, received nan"⟩]
  | _ => [⟨"duration", "Expected number"⟩]

/-- zod check for
`services: z.array(z.string()).min(1, "At least one service is required")`. -/
def checkServices : JsValue → List Issue
  | .strArr xs => if 1 ≤ xs.length then [] else [⟨"services", "At least one service is required"⟩]
  | _ => [⟨"services", "Expected array"⟩]

/-- zod check for `features: z.array(z.string())`. -/
def checkFeatures : JsValue → List Issue
  | .strArr _ => []
  | _ => [⟨"features", "Expected array"⟩]

/-- All issues produced by `planSchema.parse` on a payload: zod object
parsing runs every field's checks and aggregates the issues, in the key
order of the schema. -/
def planSchemaIssues (p : PlanPayload) : List Issue :=
  checkName p.name ++ checkDescription p.description ++ checkPrice p.price ++
    checkDuration p.duration ++ checkServices p.services ++ checkFeatures p.features

/-- The fields of a payload on which `planSchema`'s checks fail, in
schema key order. -/
def failingFields (p : PlanPayload) : List String :=
  (if checkName p.name = [] then [] else ["name"]) ++
    (if checkDescription p.description = [] then [] else ["description"]) ++
    (if checkPrice p.price = [] then [] else ["price"]) ++
    (if checkDuration p.duration = [] then [] else ["duration"]) ++
    (if checkServices p.services = [] then [] else ["services"]) ++
    (if checkFeatures p.features = [] then [] else ["features"])

/-- String content of a validated string field. -/
def getStr : JsValue → String
  | .str s => s
  | _ => ""

/-- Numeric content of a validated number field. -/
def getNum : JsValue → ℚ
  | .number (.num q) => q
  | _ => 0

/-- Array content of a validated array field. -/
def getArr : JsValue → List String
  | .strArr xs => xs
  | _ => []

/-- A row of the `Plan` table (`createdAt` is an abstract timestamp; the
presentational `updatedAt` column is omitted). -/
structure Plan where
  id : String
  name : String
  description : String
  price : ℚ
  duration : ℤ
  createdAt : ℕ
  services : List String
  features : List String
deriving DecidableEq, Repr

/-- The session object as the handlers consult it: the current user's
role string. -/
structure Session where
  role : String
deriving DecidableEq, Repr

/-- The admin gate both `/plans` handlers open with:
`!session || session.user.role !== "ADMIN"`. -/
def isAdmin : Option Session → Bool
  | none => false
  | some s => s.role = "ADMIN"

/-- Result of the `POST /plans` handler.  `badRequest` is the
`z.ZodError` branch (HTTP 400) carrying `error.errors`; `created` is the
success branch returning the new plan (and shown here with the new store
contents); `internalError` is the catch-all 500 branch, reachable only
on a store failure, which the pure store model never produces. -/
inductive PostResponse where
  | unauthorized
  | badRequest (issues : List Issue)
  | created (plan : Plan) (store : List Plan)
  | internalError
deriving DecidableEq, Repr

/-- HTTP status of a `POST /plans` response. -/
def PostResponse.status : PostResponse → ℕ
  | .unauthorized => 401
  | .badRequest _ => 400
  | .created _ _ => 200
  | .internalError => 500

/-- The coercion step of the `POST /plans` handler:
`json.price = parseFloat(json.price)` and
`json.duration = parseInt(json.duration)`. -/
def coercePayload (json : PlanPayload) : PlanPayload :=
  { json with
    price := .number (jsParseFloat json.price)
    duration := .number (jsParseInt json.duration) }

/-- The `POST /plans` handler: admin gate, then
`json.price = parseFloat(json.price)`,
`json.duration = parseInt(json.duration)`, then `planSchema.parse`,
then `db.plan.create`.  `newId` and `now` model the generated id and
`createdAt` timestamp. -/
def plansPOST (session : Option Session) (store : List Plan)
    (json : PlanPayload) (newId : String) (now : ℕ) : PostResponse :=
  if ¬ isAdmin session then .unauthorized
  else
    let json' : PlanPayload := coercePayload json
    match planSchemaIssues json' with
    | [] =>
      let plan : Plan :=
        { id := newId
          name := getStr json'.name
          description := getStr json'.description
          price := getNum json'.price
          duration := (getNum json'.duration).num
          createdAt := now
          services := getArr json'.services
          features := getArr json'.features }
      .created plan (store ++ [plan])
    | issues => .badRequest issues

/-- Insert a plan into a list kept sorted by `createdAt` descending. -/
def insertByCreatedDesc (p : Plan) : List Plan → List Plan
  | [] => [p]
  | q :: qs => if q.createdAt ≤ p.createdAt then p :: q :: qs else q :: insertByCreatedDesc p qs

/-- `orderBy: (createdAt: "desc")` — the store returns the plans sorted
by creation time descending (insertion sort). -/
def sortByCreatedDesc : List Plan → List Plan
  | [] => []
  | p :: ps => insertByCreatedDesc p (sortByCreatedDesc ps)

/-- The store error kinds the `GET /plans` query can raise: Prisma
rejects a negative `skip`. -/
inductive DbError where
  | negativeSkip
deriving DecidableEq, Repr

/-- Models `db.plan.findMany` with `orderBy createdAt desc`, `skip` and
`take`: a negative `skip` is rejected; a non-negative `take` takes the
first `take` results after the skip; a negative `take` returns the last
`|take|` of them. -/
def findManyPlans (store : List Plan) (skip take : ℤ) : Except DbError (List Plan) :=
  if skip < 0 then .error .negativeSkip
  else
    let afterSkip := (sortByCreatedDesc store).drop skip.toNat
    if 0 ≤ take then .ok (afterSkip.take take.toNat)
    else .ok (afterSkip.drop (afterSkip.length - (-take).toNat))

/-- The formatted plan objects the `GET /plans` handler returns
(`formattedPlans`): the stored fields without the timestamps. -/
structure FormattedPlan where
  id : String
  name : String
  description : String
  price : ℚ
  duration : ℤ
  services : List String
  features : List String
deriving DecidableEq, Repr

/-- The `plans.map((plan) => ...)` formatting step.  `features` is a
non-nullable array column, so `plan.features || []` is the identity. -/
def formatPlan (p : Plan) : FormattedPlan :=
  { id := p.id, name := p.name, description := p.description, price := p.price,
    duration := p.duration, services := p.services, features := p.features }

/-- JavaScript division `a / b` for a non-negative count over an integer
divisor: division by zero gives `Infinity` (or `NaN` for `0 / 0`). -/
def jsDivNat (a : ℕ) (b : ℤ) : JsNum :=
  if b = 0 then (if a = 0 then .nan else .inf)
  else .num ((a : ℚ) / (b : ℚ))

/-- JavaScript `Math.ceil` on a JS number. -/
def jsCeil : JsNum → JsNum
  | .num q => .num (⌈q⌉ : ℚ)
  | .nan => .nan
  | .inf => .inf

/-- The `GET /plans` success body: formatted plans plus the pagination
object. -/
structure PlansPage where
  plans : List FormattedPlan
  total : ℕ
  pageCount : JsNum
  currentPage : ℤ
  pageSize : ℤ
deriving DecidableEq, Repr

/-- Result of the `GET /plans` handler. -/
inductive GetResponse where
  | unauthorized
  | ok (body : PlansPage)
  | internalError
deriving DecidableEq, Repr

/-- HTTP status of a `GET /plans` response. -/
def GetResponse.status : GetResponse → ℕ
  | .unauthorized => 401
  | .ok _ => 200
  | .internalError => 500

/-- The `GET /plans` handler: admin gate, then
`skip = (page - 1) * pageSize`, `totalPlans = db.plan.count()`,
`db.plan.findMany(orderBy createdAt desc, skip, take: pageSize)`, and
the response with `pageCount = Math.ceil(totalPlans / pageSize)`.
The handler performs no validation of `page` or `pageSize`; a store
failure is caught and returned as a 500.  (The extraction of `page` and
`pageSize` from the query string via `parseInt` with defaults `"1"` and
`"10"` is abstracted: the handler is modelled from the point where both
are integers.) -/
def plansGET (session : Option Session) (store : List Plan)
    (page pageSize : ℤ) : GetResponse :=
  if ¬ isAdmin session then .unauthorized
  else
    let skip := (page - 1) * pageSize
    let totalPlans := store.length
    match findManyPlans store skip pageSize with
    | .error _ => .internalError
    | .ok plans =>
      .ok { plans := plans.map formatPlan
            total := totalPlans
            pageCount := jsCeil (jsDivNat totalPlans pageSize)
            currentPage := page
            pageSize := pageSize }

/-! ## The relational schema: foreign keys and their `ON DELETE` actions
(translated from the migration SQL in `src/unnamed/part_001`). -/

/-- A referential action declared with `ON DELETE`. -/
inductive FkAction where
  | cascade
  | restrict
  | noAction
deriving DecidableEq, Repr

/-- A declared foreign key: its constraint name, child table, parent
table, and `ON DELETE` action. -/
structure Fk where
  name : String
  child : String
  parent : String
  onDelete : FkAction
deriving DecidableEq, Repr

/-- Every `ADD CONSTRAINT ... FOREIGN KEY ... ON DELETE ...` of the
migration, in source order. -/
def fkeys : List Fk :=
  [ ⟨"PersonalDiscovery_userId_fkey", "PersonalDiscovery", "User", .restrict⟩,
    ⟨"ScholarshipAssessment_userId_fkey", "ScholarshipAssessment", "User", .restrict⟩,
    ⟨"UserProfile_userId_fkey", "UserProfile", "User", .restrict⟩,
    ⟨"Subscription_userId_fkey", "Subscription", "User", .restrict⟩,
    ⟨"Subscription_planId_fkey", "Subscription", "Plan", .restrict⟩,
    ⟨"PaymentProof_userId_fkey", "PaymentProof", "User", .restrict⟩,
    ⟨"PaymentProof_subscriptionId_fkey", "PaymentProof", "Subscription", .restrict⟩,
    ⟨"Feedback_userId_fkey", "Feedback", "User", .restrict⟩,
    ⟨"Notification_userId_fkey", "Notification", "User", .restrict⟩,
    ⟨"TrackProgress_userId_fkey", "TrackProgress", "User", .restrict⟩,
    ⟨"UserEvent_userId_fkey", "UserEvent", "User", .cascade⟩,
    ⟨"UserEvent_eventId_fkey", "UserEvent", "Event", .cascade⟩,
    ⟨"Course_categoryId_fkey", "Course", "Category", .restrict⟩,
    ⟨"Lesson_courseId_fkey", "Lesson", "Course", .cascade⟩,
    ⟨"Enrollment_userId_fkey", "Enrollment", "User", .restrict⟩,
    ⟨"Enrollment_courseId_fkey", "Enrollment", "Course", .restrict⟩,
    ⟨"LessonCompletion_enrollmentId_fkey", "LessonCompletion", "Enrollment", .restrict⟩,
    ⟨"LessonCompletion_lessonId_fkey", "LessonCompletion", "Lesson", .restrict⟩,
    ⟨"LearningObjective_courseId_fkey", "LearningObjective", "Course", .cascade⟩,
    ⟨"CV_userId_fkey", "CV", "User", .restrict⟩,
    ⟨"career_assessments_careerUserId_fkey", "career_assessments", "career_users", .restrict⟩,
    ⟨"user_feedback_assessmentId_fkey", "user_feedback", "career_assessments", .restrict⟩ ]

/-- An abstract row of the entity store: its table, primary key, and the
foreign-key links it carries (constraint name paired with the referenced
parent's key). -/
structure Row where
  table : String
  key : String
  links : List (String × String)
deriving DecidableEq, Repr

/-- Does row `r` reference the row `(tbl, key)` through a declared
foreign key whose `ON DELETE` action satisfies `pred`? -/
def referencesVia (pred : FkAction → Bool) (tbl key : String) (r : Row) : Bool :=
  fkeys.any fun fk =>
    pred fk.onDelete ∧ fk.parent = tbl ∧ r.table = fk.child ∧ (fk.name, key) ∈ r.links

/-- `DELETE` of a parent row under the declared referential actions:
if any child references the row through a `RESTRICT` (or `NO ACTION`)
foreign key the whole delete fails; otherwise the row is removed and
each child referencing it through a `CASCADE` foreign key is deleted
recursively under the same rules.  `fuel` bounds the cascade depth; any
`fuel` larger than the store size is enough. -/
def deleteRow (fuel : ℕ) (db : List Row) (tbl key : String) : Option (List Row) :=
  match fuel with
  | 0 => none
  | fuel + 1 =>
    if db.any (referencesVia (fun a => a ≠ .cascade) tbl key) then none
    else
      let kids := db.filter (referencesVia (fun a => a = .cascade) tbl key)
      let db' := db.filter fun r => ¬ (r.table = tbl ∧ r.key = key)
      kids.foldl (fun acc kid => acc.bind fun d => deleteRow fuel d kid.table kid.key)
        (some db')

/-! ## Enrollment lifecycle (spec §4.1)

The `POST /courses/enroll` and lesson-completion handlers are not part
of the source snapshot (only the `EnrollButton` caller and the schema's
unique indexes `Enrollment_userId_courseId_key` and
`LessonCompletion_enrollmentId_lessonId_key` are); the operations are
modelled from the spec. -/

/-- The application-level error taxonomy of spec §7 (the kinds these
operations can raise). -/
inductive AppError where
  | conflict
  | notFound
deriving DecidableEq, Repr

/-- An `Enrollment` row: the (userId, courseId) pair, the denormalized
progress percentage, and the optional completion timestamp. -/
structure Enrollment where
  id : String
  userId : String
  courseId : String
  progress : ℕ
  completedAt : Option ℕ
deriving DecidableEq, Repr

/-- Modelled from the spec: `enroll(user, course)` fails with
`ConflictError` if an Enrollment already exists for that pair (the
unique index `Enrollment_userId_courseId_key`); otherwise it creates an
Enrollment with `progress = 0`. -/
def enroll (store : List Enrollment) (u c : String) (newId : String) :
    Except AppError (List Enrollment) :=
  if store.any (fun e => e.userId = u ∧ e.courseId = c) then .error .conflict
  else .ok (store ++ [⟨newId, u, c, 0, none⟩])

/-- At most one Enrollment exists per (user, course) pair: any two rows
of the store agreeing on both keys are the same row. -/
def uniquePerPair (store : List Enrollment) : Prop :=
  store.Pairwise fun e₁ e₂ => ¬ (e₁.userId = e₂.userId ∧ e₁.courseId = e₂.courseId)

/-- The per-enrollment state `completeLesson` acts on: the lessons of
the enrolled course, the lessons recorded as completed for this
enrollment, the stored progress, and the completion timestamp. -/
structure CourseState where
  lessons : List String
  completions : List String
  progress : ℕ
  completedAt : Option ℕ
deriving DecidableEq, Repr

/-- The state of a fresh enrollment in a course with the given lessons:
`progress = 0`, no completions, no completion timestamp. -/
def freshEnrollmentState (lessons : List String) : CourseState :=
  ⟨lessons, [], 0, none⟩

/-- Modelled from the spec: `completeLesson(enrollment, lesson)` fails
with `ConflictError` if that (enrollment, lesson) pair was already
recorded (the unique index `LessonCompletion_enrollmentId_lessonId_key`);
a lesson that does not belong to the course is absent and is rejected
with `NotFoundError` per the taxonomy of spec §7; otherwise a
LessonCompletion is inserted and progress is recomputed as
`(completed lesson count / total lessons in course) × 100` rounded down
to an integer; when progress reaches 100, `completedAt` is set to the
current time. -/
def completeLesson (st : CourseState) (lessonId : String) (now : ℕ) :
    Except AppError CourseState :=
  if lessonId ∈ st.completions then .error .conflict
  else if lessonId ∉ st.lessons then .error .notFound
  else
    let completions := st.completions ++ [lessonId]
    let progress := 100 * completions.length / st.lessons.length
    .ok { lessons := st.lessons
          completions := completions
          progress := progress
          completedAt := if progress = 100 then some now else st.completedAt }

/-- A sequence of `completeLesson` calls against one enrollment; a call
that fails leaves the state unchanged and the sequence continues. -/
def runCompleteLessons (st : CourseState) : List (String × ℕ) → CourseState
  | [] => st
  | (lessonId, now) :: rest =>
    match completeLesson st lessonId now with
    | .ok st' => runCompleteLessons st' rest
    | .error _ => runCompleteLessons st rest

/-- The states reachable for an enrollment: completions are distinct
lessons of the course, the stored progress is the recomputed fraction,
and `completedAt` is set exactly when progress is 100. -/
def ReachableState (st : CourseState) : Prop :=
  st.lessons.Nodup ∧ st.completions.Nodup ∧
    (∀ l ∈ st.completions, l ∈ st.lessons) ∧
    st.progress = 100 * st.completions.length / st.lessons.length ∧
    (st.completedAt.isSome ↔ st.progress = 100)

/-! ## `career_users` and its unique index on `authUserId`
(spec §4.5; the guided-assessment handlers are not part of the source
snapshot — only the migration's `career_users_authUserId_key` unique
index is — so the create/update operations are modelled from the spec
as store operations enforcing the declared indexes). -/

/-- A `career_users` row: its primary key and the optional link to an
authenticated `User` (the columns the uniqueness invariant concerns;
the profile columns are irrelevant to it and omitted). -/
structure CareerUser where
  id : String
  authUserId : Option String
deriving DecidableEq, Repr

/-- No two distinct `career_users` rows share a non-null `authUserId`
(Postgres unique indexes admit any number of NULLs). -/
def authUserIdUnique (db : List CareerUser) : Prop :=
  db.Pairwise fun r₁ r₂ => ∀ a, r₁.authUserId = some a → r₂.authUserId ≠ some a

/-- Modelled from the spec: creating a `career_users` row goes through
the store's unique indexes — the primary key and
`career_users_authUserId_key` — and fails with `ConflictError` when the
new row's id, or its non-null `authUserId`, already occurs. -/
def createCareerUser (db : List CareerUser) (row : CareerUser) :
    Except AppError (List CareerUser) :=
  if db.any (fun r => r.id = row.id) then .error .conflict
  else if db.any (fun r => row.authUserId ≠ none ∧ r.authUserId = row.authUserId) then
    .error .conflict
  else .ok (db ++ [row])

/-- Modelled from the spec: updating the `authUserId` of the
`career_users` row with key `id` (linking or unlinking an authenticated
User) fails with `NotFoundError` when the row is absent and with
`ConflictError` when the new non-null `authUserId` already occurs on a
different row (the unique index `career_users_authUserId_key`). -/
def updateCareerUserAuth (db : List CareerUser) (id : String)
    (newAuth : Option String) : Except AppError (List CareerUser) :=
  if ¬ db.any (fun r => r.id = id) then .error .notFound
  else if db.any (fun r => r.id ≠ id ∧ newAuth ≠ none ∧ r.authUserId = newAuth) then
    .error .conflict
  else .ok (db.map fun r => if r.id = id then { r with authUserId := newAuth } else r)

/-! ## Lemmas about the zod checks -/

theorem mem_ite_nil_singleton {c : Prop} [Decidable c] (x f : String) :
    f ∈ (if c then ([] : List String) else [x]) ↔ ¬c ∧ f = x := by
  split <;> simp_all

theorem mem_path_checkName (v : JsValue) (f : String) :
    f ∈ (checkName v).map Issue.path ↔ (checkName v ≠ [] ∧ f = "name") := by
  cases v <;> simp [checkName] <;> aesop

theorem mem_path_checkDescription (v : JsValue) (f : String) :
    f ∈ (checkDescription v).map Issue.path ↔ (checkDescription v ≠ [] ∧ f = "description") := by
  cases v <;> simp [checkDescription] <;> aesop

theorem mem_path_checkPrice (v : JsValue) (f : String) :
    f ∈ (checkPrice v).map Issue.path ↔ (checkPrice v ≠ [] ∧ f = "price") := by
  cases v with
  | number n => cases n <;> simp [checkPrice] <;> aesop
  | _ => simp [checkPrice]

theorem mem_path_checkDuration (v : JsValue) (f : String) :
    f ∈ (checkDuration v).map Issue.path ↔ (checkDuration v ≠ [] ∧ f = "duration") := by
  cases v with
  | number n =>
    cases n with
    | num q =>
      by_cases h1 : q.den = 1 <;> by_cases h2 : 1 ≤ q <;> simp [checkDuration, h1, h2]
    | nan => simp [checkDuration]
    | inf => simp [checkDuration]
  | _ => simp [checkDuration]

theorem mem_path_checkServices (v : JsValue) (f : String) :
    f ∈ (checkServices v).map Issue.path ↔ (checkServices v ≠ [] ∧ f = "services") := by
  cases v <;> simp [checkServices] <;> aesop

theorem mem_path_checkFeatures (v : JsValue) (f : String) :
    f ∈ (checkFeatures v).map Issue.path ↔ (checkFeatures v ≠ [] ∧ f = "features") := by
  cases v <;> simp [checkFeatures]

/-- The paths of the issues `planSchema.parse` reports are exactly the
failing fields of the payload: the error enumerates every failing
field, not only the first. -/
theorem planSchemaIssues_paths (p : PlanPayload) (f : String) :
    f ∈ (planSchemaIssues p).map Issue.path ↔ f ∈ failingFields p := by
  simp only [planSchemaIssues, failingFields, List.map_append, List.mem_append,
    mem_path_checkName, mem_path_checkDescription, mem_path_checkPrice,
    mem_path_checkDuration, mem_path_checkServices, mem_path_checkFeatures,
    mem_ite_nil_singleton]

theorem plansPOST_badRequest_of_ne_nil (sess : Option Session) (store : List Plan)
    (p : PlanPayload) (newId : String) (now : ℕ) (h : isAdmin sess = true)
    (hne : planSchemaIssues (coercePayload p) ≠ []) :
    plansPOST sess store p newId now = .badRequest (planSchemaIssues (coercePayload p)) := by
  rcases hl : planSchemaIssues (coercePayload p) with _ | ⟨a, t⟩
  · exact absurd hl hne
  · simp [plansPOST, h, hl]

theorem plansPOST_created_of_nil (sess : Option Session) (store : List Plan)
    (p : PlanPayload) (newId : String) (now : ℕ) (h : isAdmin sess = true)
    (hnil : planSchemaIssues (coercePayload p) = []) :
    plansPOST sess store p newId now =
      .created
        { id := newId
          name := getStr (coercePayload p).name
          description := getStr (coercePayload p).description
          price := getNum (coercePayload p).price
          duration := (getNum (coercePayload p).duration).num
          createdAt := now
          services := getArr (coercePayload p).services
          features := getArr (coercePayload p).features }
        (store ++
          [{ id := newId
             name := getStr (coercePayload p).name
             description := getStr (coercePayload p).description
             price := getNum (coercePayload p).price
             duration := (getNum (coercePayload p).duration).num
             createdAt := now
             services := getArr (coercePayload p).services
             features := getArr (coercePayload p).features }]) := by
  simp [plansPOST, h, hnil]

/-- Claim C2: `createPlan` rejects any payload whose (coerced) price is
negative with a `ValidationError` whose violation list mentions the
`price` field; it accepts price `0` when the other fields validate; and
on any schema violation the returned error enumerates exactly the
failing fields of the payload, not only the first. -/
theorem createPlan_validation :
    (∀ (sess : Option Session) (store : List Plan) (p : PlanPayload) (newId : String)
       (now : ℕ) (q : ℚ), isAdmin sess = true → jsParseFloat p.price = .num q → q < 0 →
       ∃ issues, plansPOST sess store p newId now = .badRequest issues ∧
         "price" ∈ issues.map Issue.path) ∧
    (∀ (sess : Option Session) (store : List Plan) (p : PlanPayload) (newId : String)
       (now : ℕ), isAdmin sess = true →
       checkName p.name = [] → checkDescription p.description = [] →
       jsParseFloat p.price = .num 0 →
       checkDuration (.number (jsParseInt p.duration)) = [] →
       checkServices p.services = [] → checkFeatures p.features = [] →
       ∃ plan store', plansPOST sess store p newId now = .created plan store' ∧
         plan.price = 0) ∧
    (∀ (sess : Option Session) (store : List Plan) (p : PlanPayload) (newId : String)
       (now : ℕ) (issues : List Issue),
       plansPOST sess store p newId now = .badRequest issues →
       ∀ f, f ∈ issues.map Issue.path ↔ f ∈ failingFields (coercePayload p)) := by
  refine ⟨?_, ?_, ?_⟩
  · intro sess store p newId now q hadm hq hneg
    have hmem : (⟨"price", "Price must be non-negative"⟩ : Issue) ∈
        planSchemaIssues (coercePayload p) := by
      simp [planSchemaIssues, coercePayload, hq, checkPrice, not_le.mpr hneg]
    refine ⟨planSchemaIssues (coercePayload p),
      plansPOST_badRequest_of_ne_nil sess store p newId now hadm
        (by intro hnil; rw [hnil] at hmem; simp at hmem), ?_⟩
    exact List.mem_map.mpr ⟨_, hmem, rfl⟩
  · intro sess store p newId now hadm hn hd hq hdur hs hf
    have hnil : planSchemaIssues (coercePayload p) = [] := by
      simp [planSchemaIssues, coercePayload, hn, hd, hq, hdur, hs, hf, checkPrice]
    exact ⟨_, _, plansPOST_created_of_nil sess store p newId now hadm hnil, by
      simp [coercePayload, hq, getNum]⟩
  · intro sess store p newId now issues hres f
    by_cases hadm : isAdmin sess = true
    · rcases hl : planSchemaIssues (coercePayload p) with _ | ⟨a, t⟩
      · rw [plansPOST_created_of_nil sess store p newId now hadm hl] at hres
        exact absurd hres (by simp)
      · rw [plansPOST_badRequest_of_ne_nil sess store p newId now hadm (by simp [hl])]
          at hres
        have : issues = planSchemaIssues (coercePayload p) := by
          rw [hl] at hres ⊢
          exact (PostResponse.badRequest.injEq .. ▸ hres :).symm
        rw [this, planSchemaIssues_paths]
    · simp [plansPOST, Bool.not_eq_true _ ▸ hadm] at hres

/-- Witness for `createPlan_validation` at concrete payloads: price `-1`
is rejected with a `price` violation, price `0` is accepted, and the
issue paths of a rejected payload are its failing fields. -/
theorem createPlan_validation_witness :
    (∃ issues,
      plansPOST (some ⟨"ADMIN"⟩) []
        ⟨.str "Basic", .str "d", .number (.num (-1)), .number (.num 30),
          .strArr ["mentorship"], .strArr []⟩ "p1" 0 = .badRequest issues ∧
      "price" ∈ issues.map Issue.path) ∧
    (∃ plan store',
      plansPOST (some ⟨"ADMIN"⟩) []
        ⟨.str "Basic", .str "d", .number (.num 0), .number (.num 30),
          .strArr ["mentorship"], .strArr []⟩ "p1" 0 = .created plan store' ∧
      plan.price = 0) ∧
    (∀ f, f ∈ ([⟨"price", "Price must be non-negative"⟩] : List Issue).map Issue.path ↔
      f ∈ failingFields (coercePayload
        ⟨.str "Basic", .str "d", .number (.num (-1)), .number (.num 30),
          .strArr ["mentorship"], .strArr []⟩)) := by
  refine ⟨?_, ?_, ?_⟩
  · exact createPlan_validation.1 (some ⟨"ADMIN"⟩) [] _ "p1" 0 (-1) rfl rfl (by norm_num)
  · exact createPlan_validation.2.1 (some ⟨"ADMIN"⟩) [] _ "p1" 0 rfl (by decide)
      (by decide) rfl (by decide) (by decide) (by decide)
  · exact createPlan_validation.2.2 (some ⟨"ADMIN"⟩) [] _ "p1" 0
      [⟨"price", "Price must be non-negative"⟩] (by decide)

theorem jsParseFloat_number (n : JsNum) : jsParseFloat (.number n) = n := rfl

theorem jsParseInt_shape (v : JsValue) :
    jsParseInt v = .nan ∨ ∃ i : ℤ, jsParseInt v = .num (i : ℚ) := by
  cases v with
  | str s =>
    rcases h : parseIntStr s with _ | i
    · exact Or.inl (by simp [jsParseInt, h])
    · exact Or.inr ⟨i, by simp [jsParseInt, h]⟩
  | number n =>
    cases n with
    | num q => exact Or.inr ⟨q.num / (q.den : ℤ), rfl⟩
    | nan => exact Or.inl rfl
    | inf => exact Or.inl rfl
  | strArr xs =>
    cases xs with
    | nil => exact Or.inl rfl
    | cons x t =>
      rcases h : parseIntStr x with _ | i
      · exact Or.inl (by simp [jsParseInt, h])
      · exact Or.inr ⟨i, by simp [jsParseInt, h]⟩
  | undef => exact Or.inl rfl

theorem jsParseInt_idem (v : JsValue) :
    jsParseInt (.number (jsParseInt v)) = jsParseInt v := by
  rcases jsParseInt_shape v with h | ⟨i, h⟩ <;> rw [h]
  · rfl
  · simp [jsParseInt, Rat.num_intCast, Rat.den_intCast]

theorem coercePayload_idem (p : PlanPayload) :
    coercePayload (coercePayload p) = coercePayload p := by
  simp [coercePayload, jsParseFloat_number, jsParseInt_idem]

/-- Claim C9: `createPlan` coerces `price` and `duration` with
`parseFloat` / `parseInt` before validation, so numeric strings behave
exactly like the numbers they denote (shown both in general through the
coercion and on the payload of spec §8, price `"49.99"` and duration
`"30"`), while a non-numeric string in either field parses to `NaN`,
which zod rejects — a `ValidationError` (HTTP 400) naming the field,
never an `InternalError`. -/
theorem createPlan_coercion :
    (∀ (sess : Option Session) (store : List Plan) (p : PlanPayload) (newId : String)
       (now : ℕ),
       plansPOST sess store p newId now = plansPOST sess store (coercePayload p) newId now) ∧
    (∀ (sess : Option Session) (store : List Plan) (n d sv ft : JsValue) (newId : String)
       (now : ℕ),
       plansPOST sess store ⟨n, d, .str "49.99", .str "30", sv, ft⟩ newId now =
         plansPOST sess store
           ⟨n, d, .number (.num ((4999 : ℚ) / 100)), .number (.num 30), sv, ft⟩ newId now) ∧
    (∀ (sess : Option Session) (store : List Plan) (p : PlanPayload) (newId : String)
       (now : ℕ) (s : String), isAdmin sess = true → p.price = .str s →
       parseFloatStr s = none →
       ∃ issues, plansPOST sess store p newId now = .badRequest issues ∧
         (⟨"price", "Expected number, received nan"⟩ : Issue) ∈ issues ∧
         (plansPOST sess store p newId now).status = 400) ∧
    (∀ (sess : Option Session) (store : List Plan) (p : PlanPayload) (newId : String)
       (now : ℕ) (s : String), isAdmin sess = true → p.duration = .str s →
       parseIntStr s = none →
       ∃ issues, plansPOST sess store p newId now = .badRequest issues ∧
         (⟨"duration", "Expected number, received nan"⟩ : Issue) ∈ issues ∧
         (plansPOST sess store p newId now).status = 400) := by
  refine ⟨?_, ?_, ?_, ?_⟩
  · intro sess store p newId now
    simp only [plansPOST, coercePayload_idem]
  · intro sess store n d sv ft newId now
    have h1 : coercePayload ⟨n, d, .str "49.99", .str "30", sv, ft⟩ =
        coercePayload ⟨n, d, .number (.num ((4999 : ℚ) / 100)), .number (.num 30), sv, ft⟩ := by
      have hp : jsParseFloat (.str "49.99") = JsNum.num ((4999 : ℚ) / 100) := by
        simp [jsParseFloat, parseFloatStr, parseFloatChars, digitsVal, fracVal]
        norm_num
      have hd : jsParseInt (.str "30") = JsNum.num 30 := by
        simp [jsParseInt, parseIntStr, parseIntChars, digitsVal]
      have hd2 : jsParseInt (.number (.num 30)) = JsNum.num 30 := by
        simp [jsParseInt]
      simp [coercePayload, hp, hd, hd2, jsParseFloat_number]
    calc plansPOST sess store ⟨n, d, .str "49.99", .str "30", sv, ft⟩ newId now
        = plansPOST sess store (coercePayload ⟨n, d, .str "49.99", .str "30", sv, ft⟩)
            newId now := by simp only [plansPOST, coercePayload_idem]
      _ = plansPOST sess store
            (coercePayload ⟨n, d, .number (.num ((4999 : ℚ) / 100)), .number (.num 30), sv, ft⟩)
            newId now := by rw [h1]
      _ = plansPOST sess store
            ⟨n, d, .number (.num ((4999 : ℚ) / 100)), .number (.num 30), sv, ft⟩ newId now := by
          simp only [plansPOST, coercePayload_idem]
  · intro sess store p newId now s hadm hp hs
    have hmem : (⟨"price", "Expected number, received nan"⟩ : Issue) ∈
        planSchemaIssues (coercePayload p) := by
      simp [planSchemaIssues, coercePayload, hp, jsParseFloat, hs, checkPrice]
    have heq := plansPOST_badRequest_of_ne_nil sess store p newId now hadm
      (by intro hnil; rw [hnil] at hmem; simp at hmem)
    exact ⟨planSchemaIssues (coercePayload p), heq, hmem, by simp [heq, PostResponse.status]⟩
  · intro sess store p newId now s hadm hp hs
    have hmem : (⟨"duration", "Expected number, received nan"⟩ : Issue) ∈
        planSchemaIssues (coercePayload p) := by
      simp [planSchemaIssues, coercePayload, hp, jsParseInt, hs, checkDuration]
    have heq := plansPOST_badRequest_of_ne_nil sess store p newId now hadm
      (by intro hnil; rw [hnil] at hmem; simp at hmem)
    exact ⟨planSchemaIssues (coercePayload p), heq, hmem, by simp [heq, PostResponse.status]⟩

/-- Witness for `createPlan_coercion`: the spec §8 payload with the
numeric strings `"49.99"` and `"30"`, and the non-numeric strings
`"abc"` in either field. -/
theorem createPlan_coercion_witness :
    (plansPOST (some ⟨"ADMIN"⟩) []
        ⟨.str "Basic", .str "d", .str "49.99", .str "30", .strArr ["mentorship"], .strArr []⟩
        "p1" 0 =
      plansPOST (some ⟨"ADMIN"⟩) []
        ⟨.str "Basic", .str "d", .number (.num ((4999 : ℚ) / 100)), .number (.num 30),
          .strArr ["mentorship"], .strArr []⟩ "p1" 0) ∧
    (∃ issues,
      plansPOST (some ⟨"ADMIN"⟩) []
        ⟨.str "Basic", .str "d", .str "abc", .number (.num 30),
          .strArr ["mentorship"], .strArr []⟩ "p1" 0 = .badRequest issues ∧
      (⟨"price", "Expected number, received nan"⟩ : Issue) ∈ issues ∧
      (plansPOST (some ⟨"ADMIN"⟩) []
        ⟨.str "Basic", .str "d", .str "abc", .number (.num 30),
          .strArr ["mentorship"], .strArr []⟩ "p1" 0).status = 400) ∧
    (∃ issues,
      plansPOST (some ⟨"ADMIN"⟩) []
        ⟨.str "Basic", .str "d", .number (.num 0), .str "abc",
          .strArr ["mentorship"], .strArr []⟩ "p1" 0 = .badRequest issues ∧
      (⟨"duration", "Expected number, received nan"⟩ : Issue) ∈ issues ∧
      (plansPOST (some ⟨"ADMIN"⟩) []
        ⟨.str "Basic", .str "d", .number (.num 0), .str "abc",
          .strArr ["mentorship"], .strArr []⟩ "p1" 0).status = 400) := by
  refine ⟨?_, ?_, ?_⟩
  · exact createPlan_coercion.2.1 (some ⟨"ADMIN"⟩) [] (.str "Basic") (.str "d")
      (.strArr ["mentorship"]) (.strArr []) "p1" 0
  · exact createPlan_coercion.2.2.1 (some ⟨"ADMIN"⟩) [] _ "p1" 0 "abc" rfl rfl
      (by simp [parseFloatStr, parseFloatChars])
  · exact createPlan_coercion.2.2.2 (some ⟨"ADMIN"⟩) [] _ "p1" 0 "abc" rfl rfl
      (by simp [parseIntStr, parseIntChars])

/-- Counterexample to claim C3: `listPlans(1, 0)` has a non-positive
`pageSize`, yet the handler returns HTTP 200 with a result page (an
empty plans list) instead of failing with a `ValidationError`
(HTTP 400). -/
theorem listPlans_no_validation_cex :
    plansGET (some ⟨"ADMIN"⟩) [] 1 0 = .ok ⟨[], 0, .nan, 1, 0⟩ ∧
    (plansGET (some ⟨"ADMIN"⟩) [] 1 0).status = 200 := by
  constructor <;> rfl

/-- Claim C3 as amended: `listPlans` performs no validation of `page`
and `pageSize` and can never produce a `ValidationError` (HTTP 400);
non-positive values reach the store — `pageSize = 0` with `page = 1`
yields HTTP 200 with an empty result page, and `page ≤ 0` with
`pageSize ≥ 1` makes the store reject the negative skip, surfacing as
an `InternalError` (HTTP 500). -/
theorem listPlans_no_validation :
    (∀ (sess : Option Session) (store : List Plan) (page pageSize : ℤ),
       (plansGET sess store page pageSize).status ≠ 400) ∧
    (∀ store : List Plan,
       plansGET (some ⟨"ADMIN"⟩) store 1 0 =
         .ok ⟨[], store.length, jsCeil (jsDivNat store.length 0), 1, 0⟩) ∧
    (∀ (store : List Plan) (page pageSize : ℤ), page ≤ 0 → 1 ≤ pageSize →
       plansGET (some ⟨"ADMIN"⟩) store page pageSize = .internalError) := by
  refine ⟨?_, ?_, ?_⟩
  · intro sess store page pageSize
    cases h : plansGET sess store page pageSize <;> simp [GetResponse.status]
  · intro store
    simp [plansGET, isAdmin, findManyPlans]
  · intro store page pageSize hpage hsize
    have hskip : (page - 1) * pageSize < 0 :=
      mul_neg_of_neg_of_pos (by omega) (by omega)
    simp [plansGET, isAdmin, findManyPlans, hskip]

/-- Witness for `listPlans_no_validation` at concrete calls. -/
theorem listPlans_no_validation_witness :
    (plansGET none [] 1 10).status ≠ 400 ∧
    plansGET (some ⟨"ADMIN"⟩)
        [⟨"a", "n", "d", 1, 1, 3, [], []⟩] 1 0 =
      .ok ⟨[], 1, jsCeil (jsDivNat 1 0), 1, 0⟩ ∧
    plansGET (some ⟨"ADMIN"⟩) [] 0 1 = .internalError :=
  ⟨listPlans_no_validation.1 none [] 1 10,
    listPlans_no_validation.2.1 [⟨"a", "n", "d", 1, 1, 3, [], []⟩],
    listPlans_no_validation.2.2 [] 0 1 (by norm_num) (by norm_num)⟩

/-- Counterexample to claim C4: an authenticated non-admin caller of
`GET /plans` IS rejected — the handler checks the ADMIN role and
answers 401. -/
theorem plansGET_admin_only_cex :
    plansGET (some ⟨"USER"⟩) [] 1 10 = .unauthorized ∧
    (plansGET (some ⟨"USER"⟩) [] 1 10).status = 401 := by
  constructor <;> rfl

/-- Claim C4 as amended: both `/plans` endpoints are admin-only — any
caller without an ADMIN session receives 401 from `GET /plans` exactly
as from `POST /plans`. -/
theorem plans_endpoints_admin_only :
    ∀ sess : Option Session, isAdmin sess = false →
      (∀ (store : List Plan) (page pageSize : ℤ),
        plansGET sess store page pageSize = .unauthorized) ∧
      (∀ (store : List Plan) (json : PlanPayload) (newId : String) (now : ℕ),
        plansPOST sess store json newId now = .unauthorized) := by
  intro sess h
  constructor
  · intro store page pageSize
    simp [plansGET, h]
  · intro store json newId now
    simp [plansPOST, h]

/-- Witness for `plans_endpoints_admin_only` with a USER-role session. -/
theorem plans_endpoints_admin_only_witness :
    plansGET (some ⟨"USER"⟩) [] 2 5 = .unauthorized ∧
    plansPOST (some ⟨"USER"⟩) []
      ⟨.str "Basic", .str "d", .number (.num 0), .number (.num 30),
        .strArr ["mentorship"], .strArr []⟩ "p1" 0 = .unauthorized :=
  ⟨(plans_endpoints_admin_only (some ⟨"USER"⟩) rfl).1 [] 2 5,
    (plans_endpoints_admin_only (some ⟨"USER"⟩) rfl).2 [] _ "p1" 0⟩

theorem insertByCreatedDesc_perm (p : Plan) (l : List Plan) :
    List.Perm (insertByCreatedDesc p l) (p :: l) := by
  induction l with
  | nil => rfl
  | cons a t ih =>
    simp only [insertByCreatedDesc]
    split
    · rfl
    · exact (List.Perm.cons a ih).trans (List.Perm.swap p a t)

theorem sortByCreatedDesc_perm (l : List Plan) : List.Perm (sortByCreatedDesc l) l := by
  induction l with
  | nil => rfl
  | cons a t ih =>
    exact (insertByCreatedDesc_perm a (sortByCreatedDesc t)).trans (List.Perm.cons a ih)

theorem pairwise_insertByCreatedDesc (p : Plan) (l : List Plan)
    (h : l.Pairwise fun a b => b.createdAt ≤ a.createdAt) :
    (insertByCreatedDesc p l).Pairwise fun a b => b.createdAt ≤ a.createdAt := by
  induction l with
  | nil => simp [insertByCreatedDesc]
  | cons a t ih =>
    simp only [insertByCreatedDesc]
    rcases List.pairwise_cons.mp h with ⟨ha, ht⟩
    split
    · rename_i hap
      exact List.pairwise_cons.mpr
        ⟨by
          intro x hx
          rcases List.mem_cons.mp hx with rfl | hx
          · exact hap
          · exact le_trans (ha x hx) hap, h⟩
    · rename_i hap
      refine List.pairwise_cons.mpr ⟨?_, ih ht⟩
      intro x hx
      have hx' := (insertByCreatedDesc_perm p t).mem_iff.mp hx
      rcases List.mem_cons.mp hx' with rfl | hx'
      · exact le_of_not_le hap
      · exact ha x hx'

theorem sortByCreatedDesc_sorted (l : List Plan) :
    (sortByCreatedDesc l).Pairwise fun a b => b.createdAt ≤ a.createdAt := by
  induction l with
  | nil => simp [sortByCreatedDesc]
  | cons a t ih => exact pairwise_insertByCreatedDesc a (sortByCreatedDesc t) ih

/-- Claim C5: for an admin caller and positive `page` and `pageSize`,
`listPlans` returns the plans ordered by creation time descending,
skipping `(page-1)*pageSize` records and taking at most `pageSize`,
with `pagination.total` the number of Plan records and
`pagination.pageCount = ceil(total / pageSize)`; the returned order is
a permutation of the store sorted descending by `createdAt`. -/
theorem listPlans_pagination :
    ∀ (sess : Option Session) (store : List Plan) (page pageSize : ℤ),
      isAdmin sess = true → 1 ≤ page → 1 ≤ pageSize →
      plansGET sess store page pageSize =
        .ok { plans := (((sortByCreatedDesc store).drop ((page - 1) * pageSize).toNat).take
                pageSize.toNat).map formatPlan
              total := store.length
              pageCount := .num ((⌈(store.length : ℚ) / (pageSize : ℚ)⌉ : ℤ) : ℚ)
              currentPage := page
              pageSize := pageSize } ∧
      List.Perm (sortByCreatedDesc store) store ∧
      (sortByCreatedDesc store).Pairwise (fun a b => b.createdAt ≤ a.createdAt) := by
  intro sess store page pageSize hadm hpage hsize
  have hskip : ¬ (page - 1) * pageSize < 0 :=
    not_lt.mpr (mul_nonneg (by omega) (by omega))
  have hsz : (pageSize : ℚ) ≠ 0 := by
    have : (0 : ℤ) < pageSize := by omega
    exact_mod_cast this.ne.symm
  refine ⟨?_, sortByCreatedDesc_perm store, sortByCreatedDesc_sorted store⟩
  have h0 : ¬ pageSize = 0 := by omega
  have hnn : (0 : ℤ) ≤ pageSize := by omega
  have hdiv : jsDivNat store.length pageSize = .num ((store.length : ℚ) / (pageSize : ℚ)) := by
    simp [jsDivNat, h0]
  simp [plansGET, hadm, findManyPlans, hskip, hnn, hdiv, jsCeil]

/-- Witness for `listPlans_pagination`: an admin listing of a
three-plan store with `page = 1`, `pageSize = 2`. -/
theorem listPlans_pagination_witness :
    plansGET (some ⟨"ADMIN"⟩)
        [⟨"a", "n", "d", 1, 1, 3, [], []⟩, ⟨"b", "n", "d", 1, 1, 7, [], []⟩,
          ⟨"c", "n", "d", 1, 1, 5, [], []⟩] 1 2 =
      .ok { plans := (((sortByCreatedDesc
                [⟨"a", "n", "d", 1, 1, 3, [], []⟩, ⟨"b", "n", "d", 1, 1, 7, [], []⟩,
                  ⟨"c", "n", "d", 1, 1, 5, [], []⟩]).drop (((1 : ℤ) - 1) * 2).toNat).take
              (2 : ℤ).toNat).map formatPlan
            total := 3
            pageCount := .num ((⌈((3 : ℕ) : ℚ) / ((2 : ℤ) : ℚ)⌉ : ℤ) : ℚ)
            currentPage := 1
            pageSize := 2 } ∧
    List.Perm
      (sortByCreatedDesc
        [⟨"a", "n", "d", 1, 1, 3, [], []⟩, ⟨"b", "n", "d", 1, 1, 7, [], []⟩,
          ⟨"c", "n", "d", 1, 1, 5, [], []⟩])
      [⟨"a", "n", "d", 1, 1, 3, [], []⟩, ⟨"b", "n", "d", 1, 1, 7, [], []⟩,
        ⟨"c", "n", "d", 1, 1, 5, [], []⟩] ∧
    (sortByCreatedDesc
        [⟨"a", "n", "d", 1, 1, 3, [], []⟩, ⟨"b", "n", "d", 1, 1, 7, [], []⟩,
          ⟨"c", "n", "d", 1, 1, 5, [], []⟩]).Pairwise
      (fun a b => b.createdAt ≤ a.createdAt) :=
  listPlans_pagination (some ⟨"ADMIN"⟩)
    [⟨"a", "n", "d", 1, 1, 3, [], []⟩, ⟨"b", "n", "d", 1, 1, 7, [], []⟩,
      ⟨"c", "n", "d", 1, 1, 5, [], []⟩] 1 2 rfl (by norm_num) (by norm_num)

theorem enroll_ok_inversion (store : List Enrollment) (u c newId : String)
    (store' : List Enrollment) (h : enroll store u c newId = .ok store') :
    (∀ e ∈ store, ¬ (e.userId = u ∧ e.courseId = c)) ∧
    store' = store ++ [⟨newId, u, c, 0, none⟩] := by
  by_cases hany : ∃ e ∈ store, e.userId = u ∧ e.courseId = c
  · simp [enroll, hany] at h
  · simp [enroll, hany] at h
    exact ⟨fun e he hec => hany ⟨e, he, hec⟩, h.symm⟩

/-- Claim C1: at most one Enrollment exists per (user, course) pair —
the invariant is preserved by `enroll`, a pair already present makes
`enroll` fail with `ConflictError` (leaving the store unchanged, as a
failed call returns no new store), and in particular a second `enroll`
for a pair just enrolled fails with `ConflictError`. -/
theorem enroll_unique_per_pair :
    (∀ (store : List Enrollment) (u c newId : String) (store' : List Enrollment),
       uniquePerPair store → enroll store u c newId = .ok store' → uniquePerPair store') ∧
    (∀ (store : List Enrollment) (u c newId : String),
       (∃ e ∈ store, e.userId = u ∧ e.courseId = c) →
       enroll store u c newId = .error .conflict) ∧
    (∀ (store : List Enrollment) (u c newId newId2 : String) (store' : List Enrollment),
       enroll store u c newId = .ok store' →
       enroll store' u c newId2 = .error .conflict) := by
  refine ⟨?_, ?_, ?_⟩
  · intro store u c newId store' huniq hok
    rcases enroll_ok_inversion store u c newId store' hok with ⟨hnone, rfl⟩
    rw [uniquePerPair, List.pairwise_append]
    exact ⟨huniq, List.pairwise_singleton _ _,
      fun e he f hf => by
        rcases List.mem_singleton.mp hf with rfl
        intro ⟨h1, h2⟩
        exact hnone e he ⟨h1, h2⟩⟩
  · intro store u c newId hany
    simp [enroll, hany]
  · intro store u c newId newId2 store' hok
    rcases enroll_ok_inversion store u c newId store' hok with ⟨-, rfl⟩
    have hex : ∃ e ∈ store ++ [(⟨newId, u, c, 0, none⟩ : Enrollment)],
        e.userId = u ∧ e.courseId = c :=
      ⟨⟨newId, u, c, 0, none⟩, by simp, by simp⟩
    simp [enroll, hex]

/-- Witness for `enroll_unique_per_pair`: enrolling `(u1, c1)` in an
empty store succeeds and keeps the invariant; enrolling the same pair
again fails with `ConflictError`. -/
theorem enroll_unique_per_pair_witness :
    uniquePerPair [(⟨"e1", "u1", "c1", 0, none⟩ : Enrollment)] ∧
    enroll [(⟨"e1", "u1", "c1", 0, none⟩ : Enrollment)] "u1" "c1" "e2" = .error .conflict :=
  ⟨enroll_unique_per_pair.1 [] "u1" "c1" "e1" [⟨"e1", "u1", "c1", 0, none⟩]
      (by simp [uniquePerPair]) rfl,
    enroll_unique_per_pair.2.2 [] "u1" "c1" "e1" "e2" [⟨"e1", "u1", "c1", 0, none⟩] rfl⟩

theorem completeLesson_ok_inversion (st : CourseState) (lessonId : String) (now : ℕ)
    (st' : CourseState) (h : completeLesson st lessonId now = .ok st') :
    lessonId ∉ st.completions ∧ lessonId ∈ st.lessons ∧
    st'.lessons = st.lessons ∧
    st'.completions = st.completions ++ [lessonId] ∧
    st'.progress = 100 * (st.completions.length + 1) / st.lessons.length ∧
    st'.completedAt =
      (if 100 * (st.completions.length + 1) / st.lessons.length = 100 then some now
       else st.completedAt) := by
  by_cases h1 : lessonId ∈ st.completions
  · simp [completeLesson, h1] at h
  · by_cases h2 : lessonId ∈ st.lessons
    · simp [completeLesson, h1, h2] at h
      subst h
      simp [h1, h2]
    · simp [completeLesson, h1, h2] at h

/-- Claim C6: `completeLesson` is idempotent per (enrollment, lesson)
pair — a pair already recorded fails with `ConflictError`, a successful
completion keeps the completion list duplicate-free, and repeating a
just-recorded completion fails with `ConflictError` leaving the state
(progress and completions) unchanged. -/
theorem completeLesson_conflict_idempotent :
    (∀ (st : CourseState) (lessonId : String) (now : ℕ) (st' : CourseState),
       st.completions.Nodup → completeLesson st lessonId now = .ok st' →
       st'.completions.Nodup) ∧
    (∀ (st : CourseState) (lessonId : String) (now : ℕ),
       lessonId ∈ st.completions → completeLesson st lessonId now = .error .conflict) ∧
    (∀ (st : CourseState) (lessonId : String) (now now' : ℕ) (st' : CourseState),
       completeLesson st lessonId now = .ok st' →
       completeLesson st' lessonId now' = .error .conflict ∧
       runCompleteLessons st' [(lessonId, now')] = st') := by
  have hconf : ∀ (st : CourseState) (lessonId : String) (now : ℕ),
      lessonId ∈ st.completions → completeLesson st lessonId now = .error .conflict := by
    intro st lessonId now hmem
    simp [completeLesson, hmem]
  refine ⟨?_, hconf, ?_⟩
  · intro st lessonId now st' hnd hok
    rcases completeLesson_ok_inversion st lessonId now st' hok with ⟨h1, -, -, hc, -, -⟩
    rw [hc]
    simp [List.nodup_append, hnd, h1]
  · intro st lessonId now now' st' hok
    rcases completeLesson_ok_inversion st lessonId now st' hok with ⟨-, -, -, hc, -, -⟩
    have hmem : lessonId ∈ st'.completions := by simp [hc]
    refine ⟨hconf st' lessonId now' hmem, ?_⟩
    simp [runCompleteLessons, hconf st' lessonId now' hmem]

/-- Witness for `completeLesson_conflict_idempotent`: completing lesson
`l1` of a fresh two-lesson enrollment, then completing it again. -/
theorem completeLesson_conflict_idempotent_witness :
    (completeLesson ⟨["l1", "l2"], ["l1"], 50, none⟩ "l1" 7 = .error .conflict) ∧
    (runCompleteLessons ⟨["l1", "l2"], ["l1"], 50, none⟩ [("l1", 7)] =
      ⟨["l1", "l2"], ["l1"], 50, none⟩) := by
  have h := completeLesson_conflict_idempotent.2.2 (freshEnrollmentState ["l1", "l2"]) "l1" 3 7
    ⟨["l1", "l2"], ["l1"], 50, none⟩ rfl
  exact h

theorem progress_formula_mono (c t : ℕ) :
    100 * c / t ≤ 100 * (c + 1) / t :=
  Nat.div_le_div_right (Nat.mul_le_mul_left 100 (Nat.le_succ c))

theorem progress_eq_100_iff (c t : ℕ) (hc : c ≤ t) (ht : 0 < t) :
    100 * c / t = 100 ↔ c = t := by
  constructor
  · intro h
    have h100 : 100 ≤ 100 * c / t := h.ge
    have := (Nat.le_div_iff_mul_le ht).mp h100
    omega
  · rintro rfl
    rw [Nat.mul_div_assoc _ (dvd_refl _), Nat.div_self ht]

theorem completions_lt_of_ok (st : CourseState) (lessonId : String) (now : ℕ)
    (st' : CourseState) (hr : ReachableState st)
    (h : completeLesson st lessonId now = .ok st') :
    st.completions.length < st.lessons.length := by
  rcases completeLesson_ok_inversion st lessonId now st' h with ⟨h1, h2, -, -, -, -⟩
  rcases hr with ⟨hln, hcn, hsub, -, -⟩
  have hnd : (st.completions ++ [lessonId]).Nodup := by
    simp [List.nodup_append, hcn, h1]
  have hsub' : st.completions ++ [lessonId] ⊆ st.lessons := by
    intro x hx
    rcases List.mem_append.mp hx with hx | hx
    · exact hsub x hx
    · rcases List.mem_singleton.mp hx with rfl
      exact h2
  have := (hnd.subperm hsub').length_le
  simp at this
  omega

theorem reachable_step (st : CourseState) (lessonId : String) (now : ℕ)
    (st' : CourseState) (hr : ReachableState st)
    (h : completeLesson st lessonId now = .ok st') :
    ReachableState st' ∧ st.progress ≤ st'.progress := by
  have hlt := completions_lt_of_ok st lessonId now st' hr h
  rcases completeLesson_ok_inversion st lessonId now st' h with ⟨h1, h2, hl, hc, hp, hca⟩
  rcases hr with ⟨hln, hcn, hsub, hprog, hdone⟩
  have ht : 0 < st.lessons.length := List.length_pos.mpr (List.ne_nil_of_mem h2)
  have hsub' : ∀ l ∈ st'.completions, l ∈ st'.lessons := by
    intro x hx
    rw [hl]
    rw [hc] at hx
    rcases List.mem_append.mp hx with hx | hx
    · exact hsub x hx
    · rcases List.mem_singleton.mp hx with rfl
      exact h2
  have hlen' : st'.completions.length = st.completions.length + 1 := by simp [hc]
  have hmono : st.progress ≤ st'.progress := by
    rw [hprog, hp]
    exact progress_formula_mono st.completions.length st.lessons.length
  refine ⟨⟨hl ▸ hln, ?_, hsub', ?_, ?_⟩, hmono⟩
  · rw [hc]
    simp [List.nodup_append, hcn, h1]
  · rw [hp, hlen', hl]
  · rw [hca, hp]
    by_cases hfull : 100 * (st.completions.length + 1) / st.lessons.length = 100
    · simp [hfull]
    · rw [if_neg hfull]
      constructor
      · intro hsome
        have hold : st.progress = 100 := hdone.mp hsome
        rw [hprog] at hold
        have hct := (progress_eq_100_iff st.completions.length st.lessons.length
          (le_of_lt hlt) ht).mp hold
        omega
      · intro hcontr
        exact absurd hcontr hfull

/-- Claim C7: a fresh enrollment is a reachable state; each successful
`completeLesson` keeps the state reachable, sets progress to
`floor(100 * completedCount / totalLessons)`, and never decreases
progress; over any sequence of `completeLesson` calls progress is
monotonically non-decreasing and `completedAt` is set exactly when
progress is 100. -/
theorem completeLesson_progress_spec :
    (∀ lessons : List String, lessons.Nodup → ReachableState (freshEnrollmentState lessons)) ∧
    (∀ (st : CourseState) (lessonId : String) (now : ℕ) (st' : CourseState),
       ReachableState st → completeLesson st lessonId now = .ok st' →
       ReachableState st' ∧
       st'.progress = Nat.floor ((100 * (st'.completions.length : ℚ)) / (st.lessons.length : ℚ)) ∧
       st.progress ≤ st'.progress) ∧
    (∀ (st : CourseState) (calls : List (String × ℕ)),
       ReachableState st →
       ReachableState (runCompleteLessons st calls) ∧
       st.progress ≤ (runCompleteLessons st calls).progress ∧
       ((runCompleteLessons st calls).completedAt.isSome ↔
         (runCompleteLessons st calls).progress = 100)) := by
  have hstep : ∀ (st : CourseState) (lessonId : String) (now : ℕ) (st' : CourseState),
      ReachableState st → completeLesson st lessonId now = .ok st' →
      ReachableState st' ∧
      st'.progress = Nat.floor ((100 * (st'.completions.length : ℚ)) / (st.lessons.length : ℚ)) ∧
      st.progress ≤ st'.progress := by
    intro st lessonId now st' hr hok
    rcases reachable_step st lessonId now st' hr hok with ⟨hr', hmono⟩
    refine ⟨hr', ?_, hmono⟩
    rcases hr' with ⟨-, -, -, hprog, -⟩
    rcases completeLesson_ok_inversion st lessonId now st' hok with ⟨-, -, hl, -, -, -⟩
    rw [hprog, hl, Nat.floor_div_nat,
      show (100 * (st'.completions.length : ℚ)) = ((100 * st'.completions.length : ℕ) : ℚ) by
        push_cast; ring,
      Nat.floor_natCast]
  have hrun : ∀ (calls : List (String × ℕ)) (st : CourseState),
      ReachableState st →
      ReachableState (runCompleteLessons st calls) ∧
      st.progress ≤ (runCompleteLessons st calls).progress := by
    intro calls
    induction calls with
    | nil => intro st hr; exact ⟨hr, le_refl _⟩
    | cons hd tl ih =>
      intro st hr
      rcases hd with ⟨lessonId, now⟩
      rcases hcall : completeLesson st lessonId now with e | st'
      · have hgoal : runCompleteLessons st ((lessonId, now) :: tl) = runCompleteLessons st tl := by
          simp [runCompleteLessons, hcall]
        rw [hgoal]
        exact ih st hr
      · have := hstep st lessonId now st' hr hcall
        rcases this with ⟨hr', -, hmono⟩
        rcases ih st' hr' with ⟨hr'', hmono'⟩
        have hgoal : runCompleteLessons st ((lessonId, now) :: tl) = runCompleteLessons st' tl := by
          simp [runCompleteLessons, hcall]
        rw [hgoal]
        exact ⟨hr'', le_trans hmono hmono'⟩
  refine ⟨?_, hstep, ?_⟩
  · intro lessons hnd
    refine ⟨hnd, List.nodup_nil, ?_, ?_, ?_⟩ <;> simp [freshEnrollmentState]
  · intro st calls hr
    rcases hrun calls st hr with ⟨hr', hmono⟩
    exact ⟨hr', hmono, hr'.2.2.2.2⟩

/-- Witness for `completeLesson_progress_spec`: a fresh two-lesson
enrollment, one successful completion, and a run completing both
lessons (which reaches progress 100 and sets `completedAt`). -/
theorem completeLesson_progress_spec_witness :
    ReachableState (freshEnrollmentState ["l1", "l2"]) ∧
    (ReachableState ⟨["l1", "l2"], ["l1"], 50, none⟩ ∧
      (⟨["l1", "l2"], ["l1"], 50, none⟩ : CourseState).progress =
        Nat.floor ((100 * ((["l1"] : List String).length : ℚ)) /
          (((["l1", "l2"] : List String)).length : ℚ)) ∧
      (freshEnrollmentState ["l1", "l2"]).progress ≤
        (⟨["l1", "l2"], ["l1"], 50, none⟩ : CourseState).progress) ∧
    ((freshEnrollmentState ["l1", "l2"]).progress ≤
      (runCompleteLessons (freshEnrollmentState ["l1", "l2"]) [("l1", 3), ("l2", 4)]).progress ∧
      ((runCompleteLessons (freshEnrollmentState ["l1", "l2"])
          [("l1", 3), ("l2", 4)]).completedAt.isSome ↔
        (runCompleteLessons (freshEnrollmentState ["l1", "l2"])
          [("l1", 3), ("l2", 4)]).progress = 100)) := by
  have h1 := completeLesson_progress_spec.1 ["l1", "l2"] (by decide)
  have h2 := completeLesson_progress_spec.2.1 (freshEnrollmentState ["l1", "l2"]) "l1" 3
    ⟨["l1", "l2"], ["l1"], 50, none⟩ h1 rfl
  have h3 := completeLesson_progress_spec.2.2 (freshEnrollmentState ["l1", "l2"])
    [("l1", 3), ("l2", 4)] h1
  exact ⟨h1, h2, h3.2⟩

/-- Well-formedness of the `career_users` table: primary keys are
distinct and no two distinct rows share a non-null `authUserId`. -/
def careerWf (db : List CareerUser) : Prop :=
  (db.map CareerUser.id).Nodup ∧ authUserIdUnique db

theorem createCareerUser_ok_inversion (db : List CareerUser) (row : CareerUser)
    (db' : List CareerUser) (h : createCareerUser db row = .ok db') :
    (∀ r ∈ db, r.id ≠ row.id) ∧
    (∀ r ∈ db, ¬ (row.authUserId ≠ none ∧ r.authUserId = row.authUserId)) ∧
    db' = db ++ [row] := by
  by_cases h1 : ∃ r ∈ db, r.id = row.id
  · simp [createCareerUser, h1] at h
  · by_cases h2 : ∃ r ∈ db, row.authUserId ≠ none ∧ r.authUserId = row.authUserId
    · simp [createCareerUser, h1, h2] at h
    · simp [createCareerUser, h1, h2] at h
      exact ⟨fun r hr hid => h1 ⟨r, hr, hid⟩, fun r hr hc => h2 ⟨r, hr, hc⟩, h.symm⟩

theorem updateCareerUserAuth_ok_inversion (db : List CareerUser) (id : String)
    (newAuth : Option String) (db' : List CareerUser)
    (h : updateCareerUserAuth db id newAuth = .ok db') :
    (∀ r ∈ db, ¬ (r.id ≠ id ∧ newAuth ≠ none ∧ r.authUserId = newAuth)) ∧
    db' = db.map fun r => if r.id = id then { r with authUserId := newAuth } else r := by
  by_cases h1 : ∃ r ∈ db, r.id = id
  · by_cases h2 : ∃ r ∈ db, r.id ≠ id ∧ newAuth ≠ none ∧ r.authUserId = newAuth
    · simp [updateCareerUserAuth, h1, h2] at h
    · simp [updateCareerUserAuth, h1, h2] at h
      exact ⟨fun r hr hc => h2 ⟨r, hr, hc⟩, h.symm⟩
  · simp [updateCareerUserAuth, h1] at h

/-- Claim C10: no two distinct `career_users` rows carry the same
non-null `authUserId` — the invariant (together with primary-key
uniqueness) is preserved by the create and the update operation, and
once a guest identity is linked to a User, creating a second row linked
to the same User fails with `ConflictError`. -/
theorem careerUsers_authUserId_unique :
    (∀ (db : List CareerUser) (row : CareerUser) (db' : List CareerUser),
       careerWf db → createCareerUser db row = .ok db' → careerWf db') ∧
    (∀ (db : List CareerUser) (id : String) (newAuth : Option String)
       (db' : List CareerUser),
       careerWf db → updateCareerUserAuth db id newAuth = .ok db' → careerWf db') ∧
    (∀ (db : List CareerUser) (r1 r2 : CareerUser) (db' : List CareerUser),
       createCareerUser db r1 = .ok db' → r2.authUserId = r1.authUserId →
       r1.authUserId ≠ none → createCareerUser db' r2 = .error .conflict) := by
  refine ⟨?_, ?_, ?_⟩
  · intro db row db' hwf hok
    rcases createCareerUser_ok_inversion db row db' hok with ⟨hid, hauth, rfl⟩
    rcases hwf with ⟨hids, huniq⟩
    constructor
    · rw [List.map_append, List.nodup_append]
      refine ⟨hids, by simp, ?_⟩
      intro x hx hy
      rcases List.mem_map.mp hx with ⟨r, hr, rfl⟩
      have : r.id = row.id := by simpa using hy
      exact hid r hr this
    · rw [authUserIdUnique, List.pairwise_append]
      refine ⟨huniq, List.pairwise_singleton _ _, ?_⟩
      intro r hr r' hr' a hra
      rcases List.mem_singleton.mp hr' with rfl
      intro hrow
      exact hauth r hr ⟨by simp [hrow], by rw [hra, hrow]⟩
  · intro db id newAuth db' hwf hok
    rcases updateCareerUserAuth_ok_inversion db id newAuth db' hok with ⟨hguard, rfl⟩
    rcases hwf with ⟨hids, huniq⟩
    have hidf : (fun r : CareerUser =>
        (if r.id = id then { r with authUserId := newAuth } else r).id) = fun r => r.id := by
      funext r
      split <;> rfl
    constructor
    · rw [List.map_map,
        show (CareerUser.id ∘ fun r : CareerUser =>
            if r.id = id then { r with authUserId := newAuth } else r) = CareerUser.id from
          funext fun r => by by_cases h : r.id = id <;> simp [h, Function.comp]]
      exact hids
    · rw [authUserIdUnique, List.pairwise_map]
      have hne : db.Pairwise fun a b => a.id ≠ b.id := by
        have := List.pairwise_map.mp (hids : (db.map CareerUser.id).Pairwise (· ≠ ·))
        exact this
      refine (huniq.and hne).imp_of_mem ?_
      intro a b ha hb hab
      rcases hab with ⟨hR, hne'⟩
      by_cases haid : a.id = id <;> by_cases hbid : b.id = id
      · exact absurd (haid.trans hbid.symm) hne'
      · rw [if_pos haid, if_neg hbid]
        intro x hax hbx
        have hax' : newAuth = some x := by simpa using hax
        exact hguard b hb ⟨hbid, by simp [hax'], by rw [hbx, hax']⟩
      · rw [if_neg haid, if_pos hbid]
        intro x hax hbx
        have hbx' : newAuth = some x := by simpa using hbx
        exact hguard a ha ⟨haid, by simp [hbx'], by rw [hax, hbx']⟩
      · simp only [if_neg haid, if_neg hbid]
        exact hR
  · intro db r1 r2 db' hok hsame hnn
    rcases createCareerUser_ok_inversion db r1 db' hok with ⟨-, -, rfl⟩
    unfold createCareerUser
    split
    · rfl
    · split
      · rfl
      · rename_i hno2
        exfalso
        apply hno2
        simp only [List.any_eq_true, decide_eq_true_eq]
        refine ⟨r1, by simp, ?_, hsame.symm⟩
        rw [hsame]
        exact hnn

/-- Witness for `careerUsers_authUserId_unique`: linking guest `g1` to
User `u1`, then trying to create a second guest linked to `u1`. -/
theorem careerUsers_authUserId_unique_witness :
    careerWf [(⟨"g1", some "u1"⟩ : CareerUser)] ∧
    createCareerUser [(⟨"g1", some "u1"⟩ : CareerUser)] ⟨"g2", some "u1"⟩ =
      .error .conflict := by
  constructor
  · exact careerUsers_authUserId_unique.1 [] ⟨"g1", some "u1"⟩ [⟨"g1", some "u1"⟩]
      (by simp [careerWf, authUserIdUnique]) rfl
  · exact careerUsers_authUserId_unique.2.2 [] ⟨"g1", some "u1"⟩ ⟨"g2", some "u1"⟩
      [⟨"g1", some "u1"⟩] rfl rfl (by simp)

/-- Claim C8 as stated (for comparison with the declared schema):
cascade-delete exactly for Lesson→Course, UserEvent→User and
UserEvent→Event, restrict-delete for every other child relation. -/
def cascadeOnlyThreeClaim : Prop :=
  ∀ fk ∈ fkeys,
    (fk.onDelete = .cascade ↔
      fk.name ∈ (["Lesson_courseId_fkey", "UserEvent_userId_fkey",
        "UserEvent_eventId_fkey"] : List String))

/-- Counterexample to claim C8: the migration declares
`LearningObjective_courseId_fkey` with `ON DELETE CASCADE`, so
LearningObjective→Course is a fourth cascade relation, not restrict. -/
theorem fk_cascade_cex :
    (⟨"LearningObjective_courseId_fkey", "LearningObjective", "Course", .cascade⟩ : Fk) ∈
      fkeys ∧ ¬ cascadeOnlyThreeClaim := by
  constructor
  · decide
  · intro h
    have := h ⟨"LearningObjective_courseId_fkey", "LearningObjective", "Course", .cascade⟩
      (by decide)
    exact absurd (this.mp rfl) (by decide)

/-- Claim C8 as amended: the declared cascade relations are exactly
Lesson→Course, LearningObjective→Course, UserEvent→User and
UserEvent→Event; every other declared foreign key is restrict-delete,
so a delete of a parent row fails whenever any child references it
through a non-cascade foreign key (until those children are removed),
while cascade children are deleted with the parent — illustrated on a
Course with a Lesson and a LearningObjective (delete succeeds removing
all three) versus a Course with an Enrollment (delete fails). -/
theorem fk_on_delete_actions :
    ((fkeys.filter fun fk => fk.onDelete = .cascade).map Fk.name =
      ["UserEvent_userId_fkey", "UserEvent_eventId_fkey", "Lesson_courseId_fkey",
        "LearningObjective_courseId_fkey"]) ∧
    (∀ fk ∈ fkeys, fk.onDelete ≠ .cascade → fk.onDelete = .restrict) ∧
    (∀ (fuel : ℕ) (db : List Row) (tbl key : String),
       db.any (referencesVia (fun a => a ≠ .cascade) tbl key) = true →
       deleteRow (fuel + 1) db tbl key = none) ∧
    (deleteRow 4
        [⟨"Course", "c1", []⟩, ⟨"Lesson", "l1", [("Lesson_courseId_fkey", "c1")]⟩,
          ⟨"LearningObjective", "o1", [("LearningObjective_courseId_fkey", "c1")]⟩]
        "Course" "c1" = some []) ∧
    (deleteRow 4
        [⟨"Course", "c1", []⟩, ⟨"Enrollment", "e1", [("Enrollment_courseId_fkey", "c1")]⟩]
        "Course" "c1" = none) := by
  refine ⟨by decide, by decide, ?_, by decide, by decide⟩
  intro fuel db tbl key h
  simp only [deleteRow]
  rw [if_pos h]

/-- Witness for `fk_on_delete_actions`: `CV_userId_fkey` is a
non-cascade (hence restrict) relation, and deleting a User that still
owns a CV fails. -/
theorem fk_on_delete_actions_witness :
    (⟨"CV_userId_fkey", "CV", "User", .restrict⟩ : Fk).onDelete = .restrict ∧
    deleteRow 2 [⟨"User", "u1", []⟩, ⟨"CV", "cv1", [("CV_userId_fkey", "u1")]⟩]
      "User" "u1" = none :=
  ⟨fk_on_delete_actions.2.1 ⟨"CV_userId_fkey", "CV", "User", .restrict⟩ (by decide)
      (by decide),
    fk_on_delete_actions.2.2.1 1
      [⟨"User", "u1", []⟩, ⟨"CV", "cv1", [("CV_userId_fkey", "u1")]⟩] "User" "u1"
      (by decide)⟩

end Accm
